import Mathlib

/-!
# Verification of the Right-to-Repair bill dashboard (`src/RtR4.py`)

A shallow embedding of the dashboard's data pipeline: schema check,
supplemental-record date maps, the start/end date resolver, column
coercion, derived labels, filter defaults and filtering, and the
summary metrics.  The UI-rendering framework, CSV/JSON parsing and the
date-parsing primitives are black-box collaborators; we model the date
primitives restricted to ISO `YYYY-MM-DD` literals, which is the format
the pipeline's own data uses, and refer to `pandas` semantics where the
code relies on them (`errors="coerce"` returning a missing value, `.map`
on a dict returning missing for absent keys, `isin` being false for
missing values).
-/

set_option autoImplicit false

namespace RtR

/-- A calendar date, the value produced by the date-parsing primitive
(`pd.to_datetime`).  The year is an `Int` because the session-year tiers
build a date from an arbitrary parsed integer. -/
structure Date where
  year : Int
  month : Nat
  day : Nat
  deriving DecidableEq, Repr

/-- Decimal digit test on a character. -/
def isDigitChar (c : Char) : Bool :=
  48 ≤ c.toNat && c.toNat ≤ 57

/-- The number denoted by a list of decimal digits. -/
def digitsToNat (cs : List Char) : Nat :=
  cs.foldl (fun n c => n * 10 + (c.toNat - 48)) 0

/-- Parse a nonempty all-digit character list; `none` otherwise. -/
def parseNatChars (cs : List Char) : Option Nat :=
  if cs ≠ [] ∧ cs.all isDigitChar then some (digitsToNat cs) else none

/-- Split a character list at every occurrence of a separator character
(the semantics of `str.split` with a one-character separator). -/
def splitOnChar (sep : Char) : List Char → List Char → List (List Char)
  | [], cur => [cur.reverse]
  | c :: rest, cur =>
    if c = sep then cur.reverse :: splitOnChar sep rest []
    else splitOnChar sep rest (c :: cur)

/-- Strip leading and trailing whitespace from a character list
(the semantics of `str.strip()` / `String.trim`). -/
def trimChars (cs : List Char) : List Char :=
  ((cs.dropWhile Char.isWhitespace).reverse.dropWhile Char.isWhitespace).reverse

/-- Model of the black-box date parser `pd.to_datetime(s, errors="coerce")`
restricted to ISO `YYYY-MM-DD` literals: any other string coerces to a
missing value (`none`), never raises. -/
def parseDate (s : String) : Option Date :=
  match splitOnChar '-' s.data [] with
  | [ys, ms, ds] =>
    match parseNatChars ys, parseNatChars ms, parseNatChars ds with
    | some y, some m, some d =>
      if 1 ≤ m ∧ m ≤ 12 ∧ 1 ≤ d ∧ d ≤ 31 then some ⟨(y : Int), m, d⟩ else none
    | _, _, _ => none
  | _ => none

/-- Model of Python `int(s)` on a cell value: optional surrounding
whitespace, optional leading minus sign, decimal digits; anything else
raises (here: `none`, the caller's `except` branch). -/
def parsePyInt (s : String) : Option Int :=
  match trimChars s.data with
  | '-' :: rest => (parseNatChars rest).map (fun n => -(n : Int))
  | cs => (parseNatChars cs).map (fun n => (n : Int))

/-- Model of `pd.to_numeric(s, errors="coerce").astype("Int64")` on one
cell, restricted to integer literals: unparseable values coerce to a
missing value. -/
def toNumeric (s : String) : Option Int :=
  parsePyInt s

/-- One row of `bills_summary.csv` with the ten required columns.  Cells
are the CSV's text values; `last_action_date` is `none` when the cell is
empty (pandas `NaN`). -/
structure Row where
  state : String
  bill_number : String
  title : String
  dem_sponsors : Int
  rep_sponsors : Int
  session_start : String
  session_end : String
  last_action_date : Option String
  completed : Int
  last_action : String
  deriving DecidableEq, Repr

/-- One dated entry of a supplemental JSON record's `history`, `progress`
or `texts` array; `it.get("date")` is `none` when the key is absent. -/
structure RawItem where
  date : Option String
  deriving DecidableEq, Repr

/-- One successfully parsed supplemental JSON record from `bills_raw/`
(files that fail to parse are skipped before this point). -/
structure RawRecord where
  state : String
  bill_number : String
  history : List RawItem
  progress : List RawItem
  texts : List RawItem
  deriving DecidableEq, Repr

/-- `f"{j.get('state')}_{j.get('bill_number')}"` for a supplemental record. -/
def recKey (r : RawRecord) : String :=
  r.state ++ "_" ++ r.bill_number

/-- `f"{row['state']}_{row['bill_number']}"` for a summary row. -/
def rowKey (r : Row) : String :=
  r.state ++ "_" ++ r.bill_number

/-- The dates collected from a record's three event arrays: every `date`
value that is present and truthy (a nonempty string). -/
def collectDates (r : RawRecord) : List String :=
  (r.history ++ r.progress ++ r.texts).filterMap
    (fun it =>
      match it.date with
      | some d => if d = "" then none else some d
      | none => none)

/-- Lexicographic strict order on character lists by code point, the
order Python's `<` uses on strings. -/
def lexLtB : List Char → List Char → Bool
  | [], [] => false
  | [], _ :: _ => true
  | _ :: _, [] => false
  | a :: as, b :: bs =>
    if a.toNat < b.toNat then true
    else if b.toNat < a.toNat then false
    else lexLtB as bs

/-- Python `a < b` on strings. -/
def strLtB (a b : String) : Bool :=
  lexLtB a.data b.data

/-- Python `min` over a nonempty list of strings. -/
def minString (l : List String) : String :=
  match l with
  | [] => ""
  | x :: xs => xs.foldl (fun a b => if strLtB b a then b else a) x

/-- Python `max` over a nonempty list of strings. -/
def maxString (l : List String) : String :=
  match l with
  | [] => ""
  | x :: xs => xs.foldl (fun a b => if strLtB a b then b else a) x

/-- Dict insertion with last-wins semantics: the new binding shadows any
earlier binding of the same key under `List.lookup`. -/
def dictInsert (m : List (String × String)) (k v : String) : List (String × String) :=
  (k, v) :: m

/-- One iteration of the lines 36-51 loop for one of the two maps: when
the record's collected date list is nonempty, bind its key to the image
of that list under `f` (`min` for `start_map`, `max` for `end_map`). -/
def datesMapStep (f : List String → String)
    (m : List (String × String)) (r : RawRecord) : List (String × String) :=
  if collectDates r = [] then m else dictInsert m (recKey r) (f (collectDates r))

/-- `start_map`: for each supplemental record whose collected date list is
nonempty, bind its key to the minimum date string. -/
def startMapOf (recs : List RawRecord) : List (String × String) :=
  recs.foldl (datesMapStep minString) []

/-- `end_map`: for each supplemental record whose collected date list is
nonempty, bind its key to the maximum date string. -/
def endMapOf (recs : List RawRecord) : List (String × String) :=
  recs.foldl (datesMapStep maxString) []

/-- Lines 55-58 of `_to_start`: the supplemental-map tier — the date
parsed from the map entry for the row's key, when the key is bound and
the entry parses. -/
def startViaMap (start_map : List (String × String)) (row : Row) : Option Date :=
  match start_map.lookup (rowKey row) with
  | some s => parseDate s
  | none => none

/-- `_to_start(row)`: supplemental minimum date when it parses, else
January 1 of `int(session_start)`, else the fixed fallback 2020-01-01. -/
def toStart (start_map : List (String × String)) (row : Row) : Date :=
  match startViaMap start_map row with
  | some d => d
  | none =>
    match parsePyInt row.session_start with
    | some y => ⟨y, 1, 1⟩
    | none => ⟨2020, 1, 1⟩

/-- Lines 67-70 of `_to_end`: the `last_action_date` tier — the parsed
`last_action_date` when the cell is non-missing, nonblank after
stripping, and parses to a valid date. -/
def endViaLad (row : Row) : Option Date :=
  match row.last_action_date with
  | some s => if trimChars s.data = [] then none else parseDate s
  | none => none

/-- Lines 73-77 of `_to_end`: the supplemental-map tier. -/
def endViaMap (end_map : List (String × String)) (row : Row) : Option Date :=
  match end_map.lookup (rowKey row) with
  | some s => parseDate s
  | none => none

/-- `_to_end(row)`: `last_action_date` when present (non-missing, nonblank)
and parseable, else the supplemental maximum date when it parses, else
December 31 of `int(session_end)`, else the fixed fallback 2025-12-31. -/
def toEnd (end_map : List (String × String)) (row : Row) : Date :=
  match endViaLad row with
  | some d => d
  | none =>
    match endViaMap end_map row with
    | some d => d
    | none =>
      match parsePyInt row.session_end with
      | some y => ⟨y, 12, 31⟩
      | none => ⟨2025, 12, 31⟩

/-- A summary row right after `df["start_date"]`/`df["end_date"]` are
assigned (lines 86-87): the source row plus the two resolved dates. -/
structure ResolvedRow where
  src : Row
  start_date : Date
  end_date : Date
  deriving DecidableEq, Repr

/-- Lines 86-87: `df.apply(_to_start/_to_end, axis=1)` over every row. -/
def resolveRow (start_map end_map : List (String × String)) (r : Row) : ResolvedRow :=
  ⟨r, toStart start_map r, toEnd end_map r⟩

/-- The resolved dataset: one resolved row per input row, in order. -/
def resolveAll (start_map end_map : List (String × String)) (rows : List Row) :
    List ResolvedRow :=
  rows.map (resolveRow start_map end_map)

/-- Line 93: `df["completed"].map({1: "Completed", 0: "Not Completed"})`.
A pandas `.map` with a dict yields a missing value (`none`) for any
`completed` value that is not a key of the dict. -/
def completionLabel (completed : Int) : Option String :=
  if completed = 1 then some "Completed"
  else if completed = 0 then some "Not Completed"
  else none

/-- A dataframe row after lines 86-93: the resolved dates are attached,
`last_action_date` has been re-parsed with `errors="coerce"`,
`session_start` has been coerced to a nullable integer, and
`completion_label` has been derived.  All other source columns keep
their cell values. -/
structure CleanRow where
  state : String
  bill_number : String
  title : String
  dem_sponsors : Int
  rep_sponsors : Int
  session_start : Option Int
  session_end : String
  last_action_date : Option Date
  completed : Int
  last_action : String
  start_date : Date
  end_date : Date
  completion_label : Option String
  deriving DecidableEq, Repr

/-- Lines 90-93 applied to one resolved row: coerce `last_action_date`
and `session_start`, derive `completion_label`. -/
def cleanOfResolved (rr : ResolvedRow) : CleanRow :=
  { state := rr.src.state
    bill_number := rr.src.bill_number
    title := rr.src.title
    dem_sponsors := rr.src.dem_sponsors
    rep_sponsors := rr.src.rep_sponsors
    session_start := toNumeric rr.src.session_start
    session_end := rr.src.session_end
    last_action_date := rr.src.last_action_date.bind parseDate
    completed := rr.src.completed
    last_action := rr.src.last_action
    start_date := rr.start_date
    end_date := rr.end_date
    completion_label := completionLabel rr.src.completed }

/-- The full per-row preparation of lines 86-93, from the source row. -/
def cleanRow (start_map end_map : List (String × String)) (r : Row) : CleanRow :=
  cleanOfResolved (resolveRow start_map end_map r)

/-- The prepared dataframe: lines 86-93 over every row. -/
def cleanAll (start_map end_map : List (String × String)) (rows : List Row) :
    List CleanRow :=
  rows.map (cleanRow start_map end_map)

/-- Ascending insertion of an integer into a list. -/
def insertInt (a : Int) : List Int → List Int
  | [] => [a]
  | b :: l => if a ≤ b then a :: b :: l else b :: insertInt a l

/-- `sorted` on a list of integers (insertion sort). -/
def sortInts (l : List Int) : List Int :=
  l.foldr insertInt []

/-- First-occurrence deduplication of integers against a seen set, the
semantics of pandas `unique()`. -/
def dedupIntsFrom (seen : List Int) : List Int → List Int
  | [] => []
  | a :: l =>
    if seen.contains a then dedupIntsFrom seen l
    else a :: dedupIntsFrom (a :: seen) l

/-- The distinct elements of an integer list, first occurrences kept. -/
def dedupInts (l : List Int) : List Int :=
  dedupIntsFrom [] l

/-- Python `a <= b` on strings (negation of the reverse strict order). -/
def strLeB (a b : String) : Bool :=
  ! strLtB b a

/-- Ascending insertion of a string into a list. -/
def insertStr (a : String) : List String → List String
  | [] => [a]
  | b :: l => if strLeB a b then a :: b :: l else b :: insertStr a l

/-- `sorted` on a list of strings (insertion sort). -/
def sortStrs (l : List String) : List String :=
  l.foldr insertStr []

/-- First-occurrence deduplication of strings against a seen set. -/
def dedupStrsFrom (seen : List String) : List String → List String
  | [] => []
  | a :: l =>
    if seen.contains a then dedupStrsFrom seen l
    else a :: dedupStrsFrom (a :: seen) l

/-- The distinct elements of a string list, first occurrences kept. -/
def dedupStrs (l : List String) : List String :=
  dedupStrsFrom [] l

/-- Line 112: `sorted(df["session_start"].dropna().unique())` — the
distinct non-missing session-start years, ascending. -/
def availableYears (rows : List CleanRow) : List Int :=
  sortInts (dedupInts (rows.filterMap (fun c => c.session_start)))

/-- Lines 113-117: the year multiselect default is `[2025]` when 2025 is
among the available years, otherwise all available years. -/
def defaultYears (rows : List CleanRow) : List Int :=
  if (2025 : Int) ∈ availableYears rows then [2025] else availableYears rows

/-- Line 120: `sorted(df["state"].dropna().unique())`. -/
def stateOptions (rows : List CleanRow) : List String :=
  sortStrs (dedupStrs (rows.map (fun c => c.state)))

/-- Line 121: the state multiselect defaults to all state options. -/
def defaultStates (rows : List CleanRow) : List String :=
  stateOptions rows

/-- Line 124: `comp_label_map = {"Completed": 1, "Not Completed": 0}`. -/
def compLabelMap (label : String) : Int :=
  if label = "Completed" then 1 else 0

/-- Lines 125-129: the completion multiselect options and default are the
two labels. -/
def defaultCompLabels : List String :=
  ["Completed", "Not Completed"]

/-- Line 130: `comp_values = [comp_label_map[x] for x in comp_selection]`. -/
def compValues (comp_selection : List String) : List Int :=
  comp_selection.map compLabelMap

/-- The per-row filter predicate of lines 135-139: membership of the
coerced `session_start` in the selected years (a missing year is never a
member), of `state` in the selected states, and of `completed` in the
selected completion values. -/
def rowPasses (years : List Int) (states : List String) (comps : List Int)
    (c : CleanRow) : Bool :=
  (match c.session_start with
   | some y => years.contains y
   | none => false)
  && states.contains c.state
  && comps.contains c.completed

/-- Lines 135-139: `filtered = df[... & ... & ...]`. -/
def filteredRows (years : List Int) (states : List String) (comps : List Int)
    (rows : List CleanRow) : List CleanRow :=
  rows.filter (rowPasses years states comps)

/-- Line 147: `len(filtered)`. -/
def totalCount (rows : List CleanRow) : Nat :=
  rows.length

/-- Line 148: `int(filtered["completed"].sum())`. -/
def completedCount (rows : List CleanRow) : Int :=
  (rows.map (fun c => c.completed)).sum

/-- Line 149: `int(len(filtered) - filtered["completed"].sum())`. -/
def notCompletedCount (rows : List CleanRow) : Int :=
  (totalCount rows : Int) - completedCount rows

/-- Lines 22-23: the ten required summary-table columns. -/
def requiredCols : List String :=
  ["state", "bill_number", "title", "dem_sponsors", "rep_sponsors",
   "session_start", "session_end", "last_action_date", "completed", "last_action"]

/-- Line 24: `missing = required_cols - set(df.columns)`. -/
def missingCols (cols : List String) : List String :=
  requiredCols.filter (fun c => ! cols.contains c)

/-- Lines 25-27: when any required column is missing the app emits an
error naming the missing columns and stops (`st.stop()`); otherwise the
script proceeds. -/
def startupCheck (cols : List String) : Except (List String) Unit :=
  if missingCols cols = [] then Except.ok () else Except.error (missingCols cols)

/-- The maximum of an integer list, `none` when the list is empty. -/
def maxIntList : List Int → Option Int
  | [] => none
  | a :: l => some (l.foldl (fun x y => if x ≤ y then y else x) a)

/-- The year default as the spec's sentence states it, for comparison
with `defaultYears`: the most recent (maximum) available session-start
year when one exists, otherwise all available years. -/
def specDefaultYears (rows : List CleanRow) : List Int :=
  match maxIntList (availableYears rows) with
  | some y => [y]
  | none => availableYears rows

/-- The frame property claimed for the date-resolution step, stated per
the spec's words: every source field holds the same value after lines
86-93 as before them.  For the two re-typed columns this means a
present value stays present: the source `session_start` cell always
holds a value, and `last_action_date` is present afterwards exactly
when it was before. -/
def sourcePreserved (sm em : List (String × String)) (r : Row) : Prop :=
  (cleanRow sm em r).state = r.state
  ∧ (cleanRow sm em r).bill_number = r.bill_number
  ∧ (cleanRow sm em r).title = r.title
  ∧ (cleanRow sm em r).dem_sponsors = r.dem_sponsors
  ∧ (cleanRow sm em r).rep_sponsors = r.rep_sponsors
  ∧ (cleanRow sm em r).session_end = r.session_end
  ∧ (cleanRow sm em r).completed = r.completed
  ∧ (cleanRow sm em r).last_action = r.last_action
  ∧ (cleanRow sm em r).session_start.isSome = true
  ∧ (cleanRow sm em r).last_action_date.isSome = r.last_action_date.isSome

/-- The spec's §8 scenario bill: RI H5169, session 2025-2026, no
`last_action_date`, not completed. -/
def exRow : Row :=
  { state := "RI", bill_number := "H5169", title := "Right to repair",
    dem_sponsors := 3, rep_sponsors := 1, session_start := "2025",
    session_end := "2026", last_action_date := none, completed := 0,
    last_action := "Introduced" }

/-- The spec's §8 supplemental scenario: events dated 2025-03-01 and
2025-11-15 for the same bill. -/
def exRec : RawRecord :=
  { state := "RI", bill_number := "H5169",
    history := [⟨some "2025-03-01"⟩, ⟨some "2025-11-15"⟩],
    progress := [], texts := [] }

/-- A supplemental record whose lexicographically smallest event-date
string does not parse as a date even though a parseable event date is
also present. -/
def c1Rec : RawRecord :=
  { state := "RI", bill_number := "H5169",
    history := [⟨some "0000-99-99"⟩, ⟨some "2025-05-05"⟩],
    progress := [], texts := [] }

/-- The scenario bill with session-start year 2024. -/
def c1Row : Row :=
  { exRow with session_start := "2024" }

/-- A supplemental record whose lexicographically largest event-date
string does not parse as a date even though a parseable event date is
also present. -/
def c2Rec : RawRecord :=
  { state := "RI", bill_number := "H5169",
    history := [⟨some "2025-05-05"⟩, ⟨some "9999-99-99"⟩],
    progress := [], texts := [] }

/-- A dataset whose session-start years are 2025 and 2026. -/
def c5Rows : List Row :=
  [exRow, { exRow with session_start := "2026" }]

/-- The scenario bill with an unparseable session-start cell. -/
def c10Row : Row :=
  { exRow with session_start := "unknown" }

/-! ## Helper lemmas -/

theorem mem_insertInt (a b : Int) (l : List Int) :
    a ∈ insertInt b l ↔ a = b ∨ a ∈ l := by
  induction l with
  | nil => simp [insertInt]
  | cons c l ih =>
    by_cases h : b ≤ c <;> (simp [insertInt, h, ih]; try tauto)

theorem mem_sortInts (a : Int) (l : List Int) :
    a ∈ sortInts l ↔ a ∈ l := by
  induction l with
  | nil => simp [sortInts]
  | cons b l ih =>
    show a ∈ insertInt b (sortInts l) ↔ _
    rw [mem_insertInt, ih]
    simp

theorem mem_dedupIntsFrom (a : Int) (l : List Int) : ∀ seen : List Int,
    a ∈ dedupIntsFrom seen l ↔ (a ∈ l ∧ a ∉ seen) := by
  induction l with
  | nil => intro seen; simp [dedupIntsFrom]
  | cons b l ih =>
    intro seen
    by_cases hb : seen.contains b
    · have hbm : b ∈ seen := List.elem_iff.mp hb
      rw [dedupIntsFrom, if_pos hb, ih]
      constructor
      · rintro ⟨h1, h2⟩
        exact ⟨List.mem_cons_of_mem _ h1, h2⟩
      · rintro ⟨h1, h2⟩
        rcases List.mem_cons.mp h1 with rfl | h1
        · exact absurd hbm h2
        · exact ⟨h1, h2⟩
    · have hbm : b ∉ seen := fun hm => hb (List.elem_iff.mpr hm)
      rw [dedupIntsFrom, if_neg hb]
      constructor
      · intro h1
        rcases List.mem_cons.mp h1 with rfl | h1
        · exact ⟨List.mem_cons_self a l, hbm⟩
        · obtain ⟨h2, h3⟩ := (ih (b :: seen)).mp h1
          refine ⟨List.mem_cons_of_mem _ h2, fun hs => h3 (List.mem_cons_of_mem _ hs)⟩
      · rintro ⟨h1, h2⟩
        rcases List.mem_cons.mp h1 with rfl | h1
        · exact List.mem_cons_self a _
        · by_cases hab : a = b
          · subst hab; exact List.mem_cons_self a _
          · refine List.mem_cons_of_mem _ ((ih (b :: seen)).mpr ⟨h1, fun hs => ?_⟩)
            rcases List.mem_cons.mp hs with h3 | h3
            · exact hab h3
            · exact h2 h3

theorem mem_availableYears (y : Int) (rows : List CleanRow) :
    y ∈ availableYears rows ↔ ∃ c ∈ rows, c.session_start = some y := by
  simp [availableYears, mem_sortInts, dedupInts, mem_dedupIntsFrom, List.mem_filterMap]

theorem mem_cleanAll (c : CleanRow) (sm em : List (String × String)) (rows : List Row) :
    c ∈ cleanAll sm em rows ↔ ∃ r ∈ rows, c = cleanRow sm em r := by
  simp [cleanAll, List.mem_map, eq_comm]

theorem cleanRow_session_start (sm em : List (String × String)) (r : Row) :
    (cleanRow sm em r).session_start = toNumeric r.session_start := rfl

theorem rowPasses_iff (ys : List Int) (ss : List String) (cs : List Int) (c : CleanRow) :
    rowPasses ys ss cs c = true ↔
      ((∃ y, c.session_start = some y ∧ y ∈ ys) ∧ c.state ∈ ss ∧ c.completed ∈ cs) := by
  unfold rowPasses
  cases h : c.session_start with
  | none => simp [h]
  | some y => simp [h, List.elem_iff, List.contains, and_assoc]

theorem lookup_datesMap (f : List String → String) (recs : List RawRecord)
    (m : List (String × String)) (k s : String)
    (h : (recs.foldl (datesMapStep f) m).lookup k = some s) :
    (∃ rec ∈ recs, recKey rec = k ∧ collectDates rec ≠ [] ∧ s = f (collectDates rec))
    ∨ m.lookup k = some s := by
  induction recs generalizing m with
  | nil => exact Or.inr h
  | cons r rest ih =>
    rw [List.foldl_cons] at h
    rcases ih (datesMapStep f m r) h with hex | hm
    · obtain ⟨rec, hmem, hrest⟩ := hex
      exact Or.inl ⟨rec, List.mem_cons_of_mem _ hmem, hrest⟩
    · by_cases hds : collectDates r = []
      · right
        simpa [datesMapStep, hds] using hm
      · by_cases hk : k = recKey r
        · left
          subst hk
          simp [datesMapStep, hds, dictInsert, List.lookup] at hm
          exact ⟨r, List.mem_cons_self r rest, rfl, hds, hm.symm⟩
        · right
          have hb : (k == recKey r) = false := beq_eq_false_iff_ne.mpr hk
          simpa [datesMapStep, hds, dictInsert, List.lookup, hb] using hm

theorem splitOnChar_no_sep (sep : Char) (cs : List Char) : ∀ cur : List Char,
    (∀ c ∈ cs, c ≠ sep) → splitOnChar sep cs cur = [cur.reverse ++ cs] := by
  induction cs with
  | nil => intro cur _; simp [splitOnChar]
  | cons c rest ih =>
    intro cur h
    have hc : c ≠ sep := h c (List.mem_cons_self c rest)
    rw [splitOnChar, if_neg hc, ih (c :: cur) (fun x hx => h x (List.mem_cons_of_mem _ hx))]
    simp

theorem trimChars_eq_nil (cs : List Char) (h : trimChars cs = []) :
    ∀ c ∈ cs, c.isWhitespace := by
  unfold trimChars at h
  have h1 : (cs.dropWhile Char.isWhitespace).reverse.dropWhile Char.isWhitespace = [] :=
    List.reverse_eq_nil_iff.mp h
  have h3 : ∀ c ∈ cs.dropWhile Char.isWhitespace, Char.isWhitespace c := by
    intro c hc
    exact List.dropWhile_eq_nil_iff.mp h1 c (List.mem_reverse.mpr hc)
  intro c hc
  rw [← List.takeWhile_append_dropWhile (p := Char.isWhitespace) (l := cs)] at hc
  rcases List.mem_append.mp hc with h4 | h4
  · exact List.mem_takeWhile_imp h4
  · exact h3 c h4

theorem parseDate_nonblank (s : String) (d : Date) (h : parseDate s = some d) :
    trimChars s.data ≠ [] := by
  intro hb
  have hall := trimChars_eq_nil s.data hb
  have hnosep : ∀ c ∈ s.data, c ≠ '-' := by
    intro c hc he
    have hw := hall c hc
    rw [he] at hw
    exact absurd hw (by decide)
  unfold parseDate at h
  rw [splitOnChar_no_sep '-' s.data [] hnosep] at h
  simp at h

/-! ## Claim theorems -/

/-- C3: the date-resolution step is total and non-dropping: applied to
any list of rows — including rows with malformed or empty date cells and
unparseable year cells — it produces one resolved row per input row, in
order, each carrying the source row unchanged together with the
(always-defined) `_to_start` and `_to_end` values; no row is dropped and
no exception escapes (`toStart`/`toEnd` are total functions into
`Date`). -/
theorem c3_resolution_total_no_drop (sm em : List (String × String)) (rows : List Row) :
    (resolveAll sm em rows).map ResolvedRow.src = rows
    ∧ (resolveAll sm em rows).length = rows.length
    ∧ ∀ rr ∈ resolveAll sm em rows,
        rr.start_date = toStart sm rr.src ∧ rr.end_date = toEnd em rr.src := by
  refine ⟨?_, ?_, ?_⟩
  · simp [resolveAll, resolveRow, List.map_map]
    exact List.map_id rows
  · simp [resolveAll]
  · intro rr hrr
    simp only [resolveAll, List.mem_map] at hrr
    obtain ⟨r, _, rfl⟩ := hrr
    exact ⟨rfl, rfl⟩

/-- Witness for C3: the third conjunct quantifies over members; applied
to the scenario dataset, even a row with a malformed `last_action_date`
and an unparseable `session_start` is resolved and kept. -/
theorem c3_witness :
    (resolveAll [] [] [{ c10Row with last_action_date := some "notadate" }]).map
        ResolvedRow.src = [{ c10Row with last_action_date := some "notadate" }]
    ∧ (resolveRow [] [] { c10Row with last_action_date := some "notadate" }).start_date
        = toStart [] { c10Row with last_action_date := some "notadate" } :=
  ⟨(c3_resolution_total_no_drop [] [] _).1,
   ((c3_resolution_total_no_drop [] [] [{ c10Row with last_action_date := some "notadate" }]).2.2
      (resolveRow [] [] { c10Row with last_action_date := some "notadate" })
      (by simp [resolveAll])).1⟩

/-- C4: filtering is the conjunction of the three membership predicates
(session-start year selected, state selected, completion value
selected), and an empty selection on any dimension yields an empty
result. -/
theorem c4_filter_conjunction (ys : List Int) (ss : List String) (cs : List Int)
    (rows : List CleanRow) :
    (∀ c, c ∈ filteredRows ys ss cs rows ↔
      (c ∈ rows ∧ (∃ y, c.session_start = some y ∧ y ∈ ys)
        ∧ c.state ∈ ss ∧ c.completed ∈ cs))
    ∧ (ys = [] ∨ ss = [] ∨ cs = [] → filteredRows ys ss cs rows = []) := by
  constructor
  · intro c
    rw [filteredRows, List.mem_filter, rowPasses_iff]
  · have hnil : ∀ ys' ss' cs', (ys' = [] ∨ ss' = [] ∨ cs' = []) →
        ∀ c : CleanRow, rowPasses ys' ss' cs' c = false := by
      rintro ys' ss' cs' (rfl | rfl | rfl) c <;>
        cases h : c.session_start <;> simp [rowPasses, h]
    intro hsel
    refine List.filter_eq_nil_iff.mpr ?_
    intro c _
    simp [hnil ys ss cs hsel c]

/-- Witness for C4: with the default-style selections the scenario row
passes the filter; with an empty year selection the result is empty. -/
theorem c4_witness :
    cleanRow [] [] exRow ∈ filteredRows [2025] ["RI"] [0, 1] (cleanAll [] [] [exRow])
    ∧ filteredRows [] ["RI"] [0, 1] (cleanAll [] [] [exRow]) = [] :=
  ⟨((c4_filter_conjunction [2025] ["RI"] [0, 1] (cleanAll [] [] [exRow])).1 _).mpr
      ⟨by decide, ⟨2025, by decide, by decide⟩, by decide, by decide⟩,
   (c4_filter_conjunction [] ["RI"] [0, 1] (cleanAll [] [] [exRow])).2 (Or.inl rfl)⟩

/-- C6 counterexample: the claim says the label mapping is total over
all possible `completed` values with a truthy value labelled
"Completed"; but `.map({1: ..., 0: ...})` yields a missing label for the
truthy value 2. -/
theorem c6_counterexample :
    ¬ (∀ c : Int, completionLabel c
        = some (if c = 0 then "Not Completed" else "Completed")) := by
  intro h
  have h2 := h 2
  simp [completionLabel] at h2

/-- C6 amended: `completion_label` is "Completed" exactly for
`completed = 1`, "Not Completed" exactly for `completed = 0`, and a
missing value for every other `completed` value. -/
theorem c6_completion_label (c : Int) :
    (completionLabel c = some "Completed" ↔ c = 1)
    ∧ (completionLabel c = some "Not Completed" ↔ c = 0)
    ∧ (completionLabel c = none ↔ (c ≠ 1 ∧ c ≠ 0)) := by
  by_cases h1 : c = 1 <;> by_cases h0 : c = 0 <;>
    simp_all [completionLabel]

/-- Witness for C6's amended theorem at the two live values. -/
theorem c6_witness :
    completionLabel 1 = some "Completed" ∧ completionLabel 0 = some "Not Completed" :=
  ⟨(c6_completion_label 1).1.mpr rfl, (c6_completion_label 0).2.1.mpr rfl⟩

/-- C7: over any filtered subset the three metrics satisfy
`completed_count + not_completed_count = total_count`. -/
theorem c7_metrics_sum (rows : List CleanRow) :
    completedCount rows + notCompletedCount rows = (totalCount rows : Int) := by
  unfold notCompletedCount
  ring

/-- C8 counterexample: lines 90-91 overwrite two source columns, so a
row whose `session_start` cell is the (present) string "unknown" ends
the resolution step with a missing `session_start` — a source field did
not keep its value. -/
theorem c8_counterexample :
    ¬ sourcePreserved [] [] c10Row := by
  intro h
  exact absurd h.2.2.2.2.2.2.2.2.1 (by decide)

/-- C8 amended: the resolution step (lines 86-93) adds `start_date`,
`end_date` and `completion_label` and re-types exactly two source
columns — `last_action_date` becomes its coerced parse (malformed or
absent becomes missing) and `session_start` its coerced number
(unparseable becomes missing) — while the other eight source fields are
unchanged. -/
theorem c8_frame (sm em : List (String × String)) (r : Row) :
    (cleanRow sm em r).state = r.state
    ∧ (cleanRow sm em r).bill_number = r.bill_number
    ∧ (cleanRow sm em r).title = r.title
    ∧ (cleanRow sm em r).dem_sponsors = r.dem_sponsors
    ∧ (cleanRow sm em r).rep_sponsors = r.rep_sponsors
    ∧ (cleanRow sm em r).session_end = r.session_end
    ∧ (cleanRow sm em r).completed = r.completed
    ∧ (cleanRow sm em r).last_action = r.last_action
    ∧ (cleanRow sm em r).session_start = toNumeric r.session_start
    ∧ (cleanRow sm em r).last_action_date = r.last_action_date.bind parseDate
    ∧ (cleanRow sm em r).start_date = toStart sm r
    ∧ (cleanRow sm em r).end_date = toEnd em r :=
  ⟨rfl, rfl, rfl, rfl, rfl, rfl, rfl, rfl, rfl, rfl, rfl, rfl⟩

/-- C9: there are ten required columns; when any is missing the startup
check fails with exactly the missing names (a required column absent
from the input's columns), and when none is missing it proceeds. -/
theorem c9_required_columns (cols : List String) :
    requiredCols.length = 10
    ∧ (missingCols cols ≠ [] → startupCheck cols = Except.error (missingCols cols))
    ∧ (∀ c, c ∈ missingCols cols ↔ (c ∈ requiredCols ∧ c ∉ cols))
    ∧ (missingCols cols = [] → startupCheck cols = Except.ok ()) := by
  refine ⟨rfl, ?_, ?_, ?_⟩
  · intro h
    simp [startupCheck, h]
  · intro c
    simp [missingCols, List.mem_filter, List.elem_iff, List.contains]
  · intro h
    simp [startupCheck, h]

/-- Witness for C9: a table with only a `state` column fails fatally
with the nine other column names; the full schema proceeds. -/
theorem c9_witness :
    startupCheck ["state"]
      = Except.error ["bill_number", "title", "dem_sponsors", "rep_sponsors",
          "session_start", "session_end", "last_action_date", "completed", "last_action"]
    ∧ startupCheck requiredCols = Except.ok () := by
  constructor
  · have h := (c9_required_columns ["state"]).2.1 (by decide)
    rw [h]
    rfl
  · exact (c9_required_columns requiredCols).2.2.2 (by decide)

/-- C10: a row whose `session_start` cell is not parseable as a number
never passes the filter under any selections (its coerced year is
missing, and a missing year is never a selected member), is absent from
every filtered result, and every selectable year option comes from a row
whose `session_start` did parse. -/
theorem c10_unparseable_year_excluded (sm em : List (String × String))
    (rows : List Row) (ys : List Int) (ss : List String) (cs : List Int)
    (r : Row) (h : toNumeric r.session_start = none) :
    rowPasses ys ss cs (cleanRow sm em r) = false
    ∧ cleanRow sm em r ∉ filteredRows ys ss cs (cleanAll sm em rows)
    ∧ ∀ y ∈ availableYears (cleanAll sm em rows),
        ∃ r' ∈ rows, toNumeric r'.session_start = some y := by
  have hpass : rowPasses ys ss cs (cleanRow sm em r) = false := by
    have hs : (cleanRow sm em r).session_start = none := by
      rw [cleanRow_session_start, h]
    unfold rowPasses
    rw [hs]
    simp
  refine ⟨hpass, ?_, ?_⟩
  · intro hmem
    have := (List.mem_filter.mp hmem).2
    rw [hpass] at this
    exact Bool.false_ne_true this
  · intro y hy
    obtain ⟨c, hc, hcy⟩ := (mem_availableYears y _).mp hy
    obtain ⟨r', hr', rfl⟩ := (mem_cleanAll c sm em rows).mp hc
    exact ⟨r', hr', by rw [← cleanRow_session_start sm em r', hcy]⟩

/-- Witness for C10: the scenario row with `session_start = "unknown"`
fails the default-style filter. -/
theorem c10_witness :
    rowPasses [2025] ["RI"] [0, 1] (cleanRow [] [] c10Row) = false :=
  (c10_unparseable_year_excluded [] [] [c10Row] [2025] ["RI"] [0, 1] c10Row (by decide)).1

/-- C1 counterexample: a supplemental record exists for the bill's key
and contains two dated events, one of them a perfectly valid date; yet
because the lexicographically minimal event-date string does not parse,
the resolver falls through and `start_date` is January 1 of the
session-start year — it equals none of the record's event dates, so it
is not their minimum. -/
theorem c1_counterexample :
    recKey c1Rec = rowKey c1Row
    ∧ collectDates c1Rec = ["0000-99-99", "2025-05-05"]
    ∧ parseDate "2025-05-05" = some ⟨2025, 5, 5⟩
    ∧ toStart (startMapOf [c1Rec]) c1Row = ⟨2024, 1, 1⟩
    ∧ (⟨2024, 1, 1⟩ : Date) ∉ (collectDates c1Rec).filterMap parseDate := by
  refine ⟨by decide, by decide, by decide, by decide, by decide⟩

/-- C1 amended: the start-date priority chain, with the first tier
corrected — the recorded minimum event-date string is used only when it
parses to a valid date; when the key is unbound or the recorded minimum
does not parse, `start_date` is January 1 of `int(session_start)`, and
the fixed fallback 2020-01-01 when that year is unparseable.  Any bound
map entry is the string-minimum of the dated events of a supplemental
record with the bill's key. -/
theorem c1_start_priority (recs : List RawRecord) (row : Row) :
    (∀ s d, (startMapOf recs).lookup (rowKey row) = some s → parseDate s = some d →
        toStart (startMapOf recs) row = d)
    ∧ (((startMapOf recs).lookup (rowKey row) = none
        ∨ ∃ s, (startMapOf recs).lookup (rowKey row) = some s ∧ parseDate s = none) →
       (∀ y, parsePyInt row.session_start = some y →
           toStart (startMapOf recs) row = ⟨y, 1, 1⟩)
       ∧ (parsePyInt row.session_start = none →
           toStart (startMapOf recs) row = ⟨2020, 1, 1⟩))
    ∧ (∀ s, (startMapOf recs).lookup (rowKey row) = some s →
        ∃ rec ∈ recs, recKey rec = rowKey row ∧ collectDates rec ≠ []
          ∧ s = minString (collectDates rec)) := by
  refine ⟨?_, ?_, ?_⟩
  · intro s d h1 h2
    have hv : startViaMap (startMapOf recs) row = some d := by
      simp [startViaMap, h1, h2]
    simp [toStart, hv]
  · intro hyp
    have hv : startViaMap (startMapOf recs) row = none := by
      rcases hyp with h | ⟨s, h1, h2⟩ <;> simp [startViaMap, *]
    constructor
    · intro y hy
      simp [toStart, hv, hy]
    · intro hn
      simp [toStart, hv, hn]
  · intro s h
    have h' : (recs.foldl (datesMapStep minString) []).lookup (rowKey row) = some s := h
    rcases lookup_datesMap minString recs [] (rowKey row) s h' with hex | hnil
    · exact hex
    · simp [List.lookup] at hnil

/-- Witness for C1's amended chain: the scenario record drives the first
tier; an absent record drives the session tier. -/
theorem c1_witness :
    toStart (startMapOf [exRec]) exRow = ⟨2025, 3, 1⟩
    ∧ toStart (startMapOf []) exRow = ⟨2025, 1, 1⟩ :=
  ⟨(c1_start_priority [exRec] exRow).1 "2025-03-01" ⟨2025, 3, 1⟩ (by decide) (by decide),
   ((c1_start_priority [] exRow).2.1 (Or.inl (by decide))).1 2025 (by decide)⟩

/-- C2 counterexample: the bill has no `last_action_date` and a
supplemental record with two dated events, one a valid date; yet because
the lexicographically maximal event-date string does not parse, the
resolver falls through and `end_date` is December 31 of the session-end
year — it equals none of the record's event dates, so it is not their
maximum. -/
theorem c2_counterexample :
    recKey c2Rec = rowKey exRow
    ∧ exRow.last_action_date = none
    ∧ collectDates c2Rec = ["2025-05-05", "9999-99-99"]
    ∧ parseDate "2025-05-05" = some ⟨2025, 5, 5⟩
    ∧ toEnd (endMapOf [c2Rec]) exRow = ⟨2026, 12, 31⟩
    ∧ (⟨2026, 12, 31⟩ : Date) ∉ (collectDates c2Rec).filterMap parseDate := by
  refine ⟨by decide, by decide, by decide, by decide, by decide, by decide⟩

/-- C2 amended: the end-date priority chain, with the second tier
corrected — when `last_action_date` is absent or does not parse, the
recorded maximum event-date string is used only when it itself parses to
a valid date; otherwise `end_date` is December 31 of
`int(session_end)`, and the fixed fallback 2025-12-31 when that year is
unparseable.  Any bound map entry is the string-maximum of the dated
events of a supplemental record with the bill's key. -/
theorem c2_end_priority (recs : List RawRecord) (row : Row) :
    (∀ s d, row.last_action_date = some s → parseDate s = some d →
        toEnd (endMapOf recs) row = d)
    ∧ ((row.last_action_date = none
        ∨ ∃ s, row.last_action_date = some s ∧ parseDate s = none) →
       (∀ s d, (endMapOf recs).lookup (rowKey row) = some s → parseDate s = some d →
           toEnd (endMapOf recs) row = d)
       ∧ (((endMapOf recs).lookup (rowKey row) = none
           ∨ ∃ s, (endMapOf recs).lookup (rowKey row) = some s ∧ parseDate s = none) →
          (∀ y, parsePyInt row.session_end = some y →
              toEnd (endMapOf recs) row = ⟨y, 12, 31⟩)
          ∧ (parsePyInt row.session_end = none →
              toEnd (endMapOf recs) row = ⟨2025, 12, 31⟩)))
    ∧ (∀ s, (endMapOf recs).lookup (rowKey row) = some s →
        ∃ rec ∈ recs, recKey rec = rowKey row ∧ collectDates rec ≠ []
          ∧ s = maxString (collectDates rec)) := by
  refine ⟨?_, ?_, ?_⟩
  · intro s d h1 h2
    have hnb := parseDate_nonblank s d h2
    have hv : endViaLad row = some d := by
      simp [endViaLad, h1, hnb, h2]
    simp [toEnd, hv]
  · intro hlad
    have hl : endViaLad row = none := by
      rcases hlad with h | ⟨s, h1, h2⟩
      · simp [endViaLad, h]
      · by_cases ht : trimChars s.data = [] <;> simp [endViaLad, h1, h2, ht]
    constructor
    · intro s d hm1 hm2
      have hv : endViaMap (endMapOf recs) row = some d := by
        simp [endViaMap, hm1, hm2]
      simp [toEnd, hl, hv]
    · intro hmap
      have hv : endViaMap (endMapOf recs) row = none := by
        rcases hmap with h | ⟨s, h1, h2⟩ <;> simp [endViaMap, *]
      constructor
      · intro y hy
        simp [toEnd, hl, hv, hy]
      · intro hn
        simp [toEnd, hl, hv, hn]
  · intro s h
    have h' : (recs.foldl (datesMapStep maxString) []).lookup (rowKey row) = some s := h
    rcases lookup_datesMap maxString recs [] (rowKey row) s h' with hex | hnil
    · exact hex
    · simp [List.lookup] at hnil

/-- Witness for C2's amended chain: a present parseable
`last_action_date` drives the first tier; the scenario record drives the
map tier; an absent record drives the session tier. -/
theorem c2_witness :
    toEnd (endMapOf []) { exRow with last_action_date := some "2025-06-30" } = ⟨2025, 6, 30⟩
    ∧ toEnd (endMapOf [exRec]) exRow = ⟨2025, 11, 15⟩
    ∧ toEnd (endMapOf []) exRow = ⟨2026, 12, 31⟩ :=
  ⟨(c2_end_priority [] { exRow with last_action_date := some "2025-06-30" }).1
      "2025-06-30" ⟨2025, 6, 30⟩ (by decide) (by decide),
   ((c2_end_priority [exRec] exRow).2.1 (Or.inl (by decide))).1
      "2025-11-15" ⟨2025, 11, 15⟩ (by decide) (by decide),
   (((c2_end_priority [] exRow).2.1 (Or.inl (by decide))).2 (Or.inl (by decide))).1
      2026 (by decide)⟩

/-- C5 counterexample: on a dataset whose session-start years are 2025
and 2026 the code's default year selection is the hardcoded `[2025]`,
not the most recent year 2026 that the claim requires. -/
theorem c5_counterexample :
    defaultYears (cleanAll [] [] c5Rows) = [2025]
    ∧ specDefaultYears (cleanAll [] [] c5Rows) = [2026]
    ∧ defaultYears (cleanAll [] [] c5Rows) ≠ specDefaultYears (cleanAll [] [] c5Rows) := by
  refine ⟨by decide, by decide, by decide⟩

/-- C5 amended: the default selections are all available states and all
completion values, and for the year dimension the fixed year 2025 when
some row's session-start parses to 2025, otherwise all available
years. -/
theorem c5_default_selections (sm em : List (String × String)) (rows : List Row) :
    ((∃ r ∈ rows, toNumeric r.session_start = some 2025) →
      defaultYears (cleanAll sm em rows) = [2025])
    ∧ ((∀ r ∈ rows, toNumeric r.session_start ≠ some 2025) →
      defaultYears (cleanAll sm em rows) = availableYears (cleanAll sm em rows))
    ∧ defaultStates (cleanAll sm em rows) = stateOptions (cleanAll sm em rows)
    ∧ defaultCompLabels = ["Completed", "Not Completed"] := by
  have hmem : (2025 : Int) ∈ availableYears (cleanAll sm em rows) ↔
      ∃ r ∈ rows, toNumeric r.session_start = some 2025 := by
    rw [mem_availableYears]
    constructor
    · rintro ⟨c, hc, hcy⟩
      obtain ⟨r, hr, rfl⟩ := (mem_cleanAll c sm em rows).mp hc
      exact ⟨r, hr, by rw [← cleanRow_session_start sm em r, hcy]⟩
    · rintro ⟨r, hr, hry⟩
      exact ⟨cleanRow sm em r, (mem_cleanAll _ sm em rows).mpr ⟨r, hr, rfl⟩,
        by rw [cleanRow_session_start, hry]⟩
  refine ⟨?_, ?_, rfl, rfl⟩
  · intro h
    rw [defaultYears, if_pos (hmem.mpr h)]
  · intro h
    rw [defaultYears, if_neg ?_]
    intro hc
    obtain ⟨r, hr, hry⟩ := hmem.mp hc
    exact h r hr hry

/-- Witness for C5's amended defaults: a dataset containing a 2025
session defaults to `[2025]`; one without defaults to all its years. -/
theorem c5_witness :
    defaultYears (cleanAll [] [] [exRow]) = [2025]
    ∧ defaultYears (cleanAll [] [] [{ exRow with session_start := "2026" }])
        = availableYears (cleanAll [] [] [{ exRow with session_start := "2026" }]) :=
  ⟨(c5_default_selections [] [] [exRow]).1 ⟨exRow, by decide, by decide⟩,
   (c5_default_selections [] [] [{ exRow with session_start := "2026" }]).2.1
      (by intro r hr; rw [List.mem_singleton] at hr; subst hr; decide)⟩

end RtR
